import Mathlib

set_option linter.unusedSectionVars false

/-!
# Verification of `recommender.py` (movie recommendation system)

Shallow embedding of the poster-fetching cache (`fetch_poster` and its
helpers) and of the similarity-based recommender (`recommend`) from
`src/recommender.py`, together with theorems settling the specification
claims about them.

Modelling conventions:
* Python floats (similarity scores) are modelled by an arbitrary linearly
  ordered type `α`; only comparisons between scores are ever used.
* The HTTP layer (`requests.get` for the metadata endpoint and for the
  image endpoint) is modelled by an oracle in `FetchConfig`: for each loop
  attempt the oracle says how the remote provider behaved.
* The filesystem under `poster_cache/` is modelled by `Store`: the set of
  cached poster blobs and the set of `.fail` marker files.
* Exceptions escaping a function are modelled with `Except`; exceptions
  caught inside a function are handled inside the embedding.
-/

deriving instance DecidableEq for Except

/-- A Python value passed as `movie_id`.  `raw` is `f"{movie_id}"`, the string
used to build the cache paths; `asInt` is the result of `int(movie_id)`
(`none` when the coercion raises `TypeError`/`ValueError`). -/
structure MovieId where
  raw : String
  asInt : Option Int
deriving DecidableEq, Repr

/-- The constant `FAIL_MARKER_EXT = ".fail"` from the source. -/
def FAIL_MARKER_EXT : String := ".fail"

/-- Source `_poster_path`: `poster_cache/{movie_id}.jpg`. -/
def posterPath (m : MovieId) : String := "poster_cache/" ++ m.raw ++ ".jpg"

/-- Source `_fail_marker_path`: `poster_cache/{movie_id}.fail`. -/
def failMarkerPath (m : MovieId) : String := "poster_cache/" ++ m.raw ++ FAIL_MARKER_EXT

/-- Source `_is_valid_movie_id`: `int(movie_id) > 0`, `False` when the coercion raises. -/
def isValidMovieId (m : MovieId) : Bool :=
  match m.asInt with
  | some n => decide (0 < n)
  | none => false

/-- The on-disk state of the `poster_cache` directory: cached poster blobs
(`{id}.jpg` files, with their byte content) and fail markers (`{id}.fail`). -/
structure Store where
  blobs : List (MovieId × String)
  markers : List MovieId
deriving DecidableEq, Repr

/-- The check `os.path.exists(cache_path)`. -/
def Store.hasBlob (s : Store) (m : MovieId) : Bool :=
  (s.blobs.map Prod.fst).contains m

/-- Source `_has_fail_marker`: `os.path.exists(_fail_marker_path(movie_id))`. -/
def Store.hasMarker (s : Store) (m : MovieId) : Bool :=
  s.markers.contains m

/-- The cache write `open(cache_path, "wb").write(img_resp.content)`. -/
def Store.putBlob (s : Store) (m : MovieId) (bytes : String) : Store :=
  { s with blobs := (m, bytes) :: s.blobs }

/-- Source `_write_fail_marker`: touches `{id}.fail`; an `OSError` is swallowed, so
when the filesystem fails (`markerOk = false`) the store is unchanged. -/
def writeFailMarker (markerOk : Bool) (m : MovieId) (s : Store) : Store :=
  if markerOk then { s with markers := m :: s.markers } else s

/-- Outcome of the image request `requests.get(full_url)` (only performed
when the metadata carried a non-empty locator). -/
inductive ImgOutcome
  | transient
  | notFound
  | ok (bytes : String)
deriving DecidableEq, Repr

/-- Outcome of one metadata request `requests.get(url)`.
`transient` covers a `RequestException` (connection error, timeout) and any
non-404 error status (`raise_for_status` raises `HTTPError`, a
`RequestException`, which the `except` clause catches). `ok locator img`
is a 2xx response whose JSON carries `poster_path = locator`; `img` is how
the subsequent image request would behave. -/
inductive MetaOutcome
  | transient
  | notFound
  | ok (locator : Option String) (img : ImgOutcome)
deriving DecidableEq, Repr

/-- The check `if not poster_path`: Python falsiness of the locator (absent/None or empty). -/
def locatorFalsy : Option String → Bool
  | none => true
  | some p => p = ""

/-- Environment of one `fetch_poster` call: the `TMDB_API_KEY` value
(`""` models unset or empty, both falsy in `if not TMDB_API_KEY`), the
remote provider's behaviour on each loop attempt, whether the cache-file
write succeeds on each attempt, and whether fail-marker writes succeed. -/
structure FetchConfig where
  apiKey : String
  attempts : Nat → MetaOutcome
  putOk : Nat → Bool
  markerOk : Bool

/-- Observable outcome of a `fetch_poster` call: the returned value (or the
exception escaping it), the resulting cache state, the number of HTTP
requests performed, and the number of loop attempts entered. -/
structure FetchOut where
  result : Except Unit (Option String)
  store : Store
  networkCalls : Nat
  attemptsMade : Nat
deriving DecidableEq, Repr

/-- The retry loop `for attempt in range(retries)` of `fetch_poster`.
`remaining` is `retries - attempt`; the recursion starts at
`attempt = 0, remaining = retries`, so `remaining = 1` exactly when
`attempt == retries - 1`, the Python test for the final attempt.
`.error ()` models the uncaught `OSError` escaping from the cache write
(it is not a `requests.exceptions.RequestException`, so the `except`
clause does not catch it). -/
def fetchLoop (cfg : FetchConfig) (m : MovieId) (s : Store) :
    Nat → Nat → Nat → Nat → FetchOut
  | _, 0, netAcc, attAcc => ⟨.ok none, s, netAcc, attAcc⟩
  | attempt, r + 1, netAcc, attAcc =>
    let n1 := netAcc + 1
    match cfg.attempts attempt with
    | .transient =>
        if r = 0 then ⟨.ok none, s, n1, attAcc + 1⟩
        else fetchLoop cfg m s (attempt + 1) r n1 (attAcc + 1)
    | .notFound => ⟨.ok none, writeFailMarker cfg.markerOk m s, n1, attAcc + 1⟩
    | .ok locator img =>
        if locatorFalsy locator then
          ⟨.ok none, writeFailMarker cfg.markerOk m s, n1, attAcc + 1⟩
        else
          let n2 := n1 + 1
          match img with
          | .notFound => ⟨.ok none, writeFailMarker cfg.markerOk m s, n2, attAcc + 1⟩
          | .transient =>
              if r = 0 then ⟨.ok none, s, n2, attAcc + 1⟩
              else fetchLoop cfg m s (attempt + 1) r n2 (attAcc + 1)
          | .ok bytes =>
              if cfg.putOk attempt then
                ⟨.ok (some (posterPath m)), s.putBlob m bytes, n2, attAcc + 1⟩
              else
                ⟨.error (), s, n2, attAcc + 1⟩

/-- Source `fetch_poster(movie_id, timeout, retries)`.  The checks happen in source
order: missing API key, invalid id, cached blob, fail marker, retry loop. -/
def fetchPoster (cfg : FetchConfig) (m : MovieId) (retries : Nat) (s : Store) : FetchOut :=
  if cfg.apiKey = "" then ⟨.ok none, s, 0, 0⟩
  else if isValidMovieId m = false then
    ⟨.ok none, writeFailMarker cfg.markerOk m s, 0, 0⟩
  else if s.hasBlob m then ⟨.ok (some (posterPath m)), s, 0, 0⟩
  else if s.hasMarker m then ⟨.ok none, s, 0, 0⟩
  else fetchLoop cfg m s 0 retries 0 0

/-- Default of the `retries` parameter of `fetch_poster`. -/
def defaultRetries : Nat := 3

section Recommender

variable {α : Type} [LinearOrder α]

/-- One row of the loaded `movies` DataFrame: the `title` cell and the
`movie_id` cell (`none` models a missing `movie_id` column or a `None`
cell, for which `recommend` skips the poster fetch). -/
structure CatRow where
  title : String
  movieId : Option MovieId
deriving DecidableEq, Repr

/-- The loaded `movies` DataFrame: whether a `title` column exists, and the
rows in positional (RangeIndex) order. -/
structure Catalog where
  hasTitleCol : Bool
  rows : List CatRow
deriving DecidableEq, Repr

/-- Source `movies.index[movies["title"] == movie_title].tolist()` followed by
`matches[0]`: the first row position whose title equals the query. -/
def findTitleIndex (cat : Catalog) (movieTitle : String) : Option Nat :=
  cat.rows.findIdx? (fun r => r.title = movieTitle)

/-- The comparator realised by `key=lambda x: x[1], reverse=True`: `a` may
come before `b` when `b`'s score is at most `a`'s. -/
def rankLE (a b : Nat × α) : Bool := decide (b.2 ≤ a.2)

/-- Source `sorted(list(enumerate(distances)), key=lambda x: x[1], reverse=True)`:
a stable sort of the index/score pairs, descending by score.  Python's
`sorted` with `reverse=True` keeps elements with equal keys in their
original (here: ascending-index) order, which is exactly `mergeSort` with
the comparator `rankLE`. -/
def scoredOf (distances : List α) : List (Nat × α) :=
  distances.enum.mergeSort rankLE

/-- Source `scored[1 : top_n + 1]`: drop the first ranked entry, take `topN`. -/
def candidatesOf (distances : List α) (topN : Nat) : List (Nat × α) :=
  ((scoredOf distances).drop 1).take topN

/-- Exceptions that can escape `recommend`: `movies.iloc[idx]` raising
`IndexError`, or the `OSError` escaping `fetch_poster`'s cache write. -/
inductive RecErr
  | ilocOutOfBounds
  | storage
deriving DecidableEq, Repr

/-- The `for idx, _score in candidates` loop of `recommend`: look up each
candidate row, fetch its poster (threading the cache state), and collect
`(title, poster)` pairs. -/
def recLoop (cfg : FetchConfig) (cat : Catalog) :
    List (Nat × α) → Store → List (String × Option String) →
    Except RecErr (List (String × Option String) × Store)
  | [], s, acc => .ok (acc.reverse, s)
  | (idx, _) :: rest, s, acc =>
    match cat.rows.get? idx with
    | none => .error .ilocOutOfBounds
    | some row =>
      match row.movieId with
      | none => recLoop cfg cat rest s ((row.title, none) :: acc)
      | some mid =>
        let out := fetchPoster cfg mid defaultRetries s
        match out.result with
        | .error _ => .error .storage
        | .ok poster => recLoop cfg cat rest out.store ((row.title, poster) :: acc)

/-- Source `recommend(movie_title, top_n)`.  Returns `[]` when there is no `title`
column, when the title is not found, or when `similarity[movie_index]`
raises (the bare `except` catches any exception there). -/
def recommend (cfg : FetchConfig) (cat : Catalog) (sim : List (List α))
    (movieTitle : String) (topN : Nat) (s : Store) :
    Except RecErr (List (String × Option String) × Store) :=
  if cat.hasTitleCol = false then .ok ([], s)
  else
    match findTitleIndex cat movieTitle with
    | none => .ok ([], s)
    | some movieIndex =>
      match sim.get? movieIndex with
      | none => .ok ([], s)
      | some distances => recLoop cfg cat (candidatesOf distances topN) s []

end Recommender

/-- A loop attempt is a transient failure when the metadata request raises a
`RequestException` (network error, timeout, non-404 error status), or the
metadata succeeds with a usable locator but the image request fails the
same way.  (A 404 or a missing locator is a permanent failure, not
transient.) -/
def MetaOutcome.transientFailure : MetaOutcome → Bool
  | .transient => true
  | .notFound => false
  | .ok locator img =>
    if locatorFalsy locator then false
    else
      match img with
      | .transient => true
      | _ => false

/-- The per-identifier on-disk record of `AssetStore`: no files, a cached
blob, or a fail marker. -/
inductive AssetRec
  | absent
  | cached
  | failed
deriving DecidableEq, Repr

/-- The record for identifier `m` in store `s`.  The cached blob is checked
first, matching the order of the checks in `fetch_poster`. -/
def recordOf (m : MovieId) (s : Store) : AssetRec :=
  if s.hasBlob m then .cached
  else if s.hasMarker m then .failed
  else .absent

/-- Store sanity: no identifier has both a blob and a marker, and blobs
exist only for valid identifiers (the only writer of blobs is `fetch_poster`
after its validity check). -/
def goodStore (s : Store) : Prop :=
  (∀ m : MovieId, ¬(s.hasBlob m = true ∧ s.hasMarker m = true)) ∧
  (∀ x : MovieId × String, x ∈ s.blobs → isValidMovieId x.1 = true)

/-- The cache state after a sequence of `fetch_poster` calls, each given by
its environment, id and retry bound. -/
def runFetches : List (FetchConfig × MovieId × Nat) → Store → Store
  | [], s => s
  | (cfg, m, r) :: rest, s => runFetches rest (fetchPoster cfg m r s).store

/-- When `recommend` returns normally its recommendation list has at most
`n` entries (vacuously true when it raises). -/
def recsLenLE (r : Except RecErr (List (String × Option String) × Store)) (n : Nat) : Prop :=
  match r with
  | .ok (recs, _) => recs.length ≤ n
  | .error _ => True

/-- Holds when `recommend` returned normally (no exception escaped). -/
def returnsNormally (r : Except RecErr (List (String × Option String) × Store)) : Prop :=
  match r with
  | .ok _ => True
  | .error _ => False

/-- Holds when `recommend` returned normally with exactly `n` recommendations and the
cache state `sExp`. -/
def recsLenEq (r : Except RecErr (List (String × Option String) × Store))
    (n : Nat) (sExp : Store) : Prop :=
  match r with
  | .ok (recs, sOut) => recs.length = n ∧ sOut = sExp
  | .error _ => False

/-! Concrete instances used by witnesses and counterexamples. -/

/-- The empty `poster_cache` directory. -/
def store0 : Store := ⟨[], []⟩

/-- A valid movie id, `1`. -/
def mid1 : MovieId := ⟨"1", some 1⟩

/-- A valid movie id, `42`. -/
def mid42 : MovieId := ⟨"42", some 42⟩

/-- An invalid movie id (`int()` coercion raises, e.g. `float("nan")`). -/
def midBad : MovieId := ⟨"nan", none⟩

/-- Environment with `TMDB_API_KEY` unset. -/
def cfgNoKey : FetchConfig := ⟨"", fun _ => .transient, fun _ => true, true⟩

/-- Environment where the provider answers 404 to every metadata request. -/
def cfgNF : FetchConfig := ⟨"k", fun _ => .notFound, fun _ => true, true⟩

/-- Environment where every request fails transiently. -/
def cfgTrans : FetchConfig := ⟨"k", fun _ => .transient, fun _ => true, true⟩

/-- Environment where the remote fetch succeeds but the local cache write
fails with an `OSError`. -/
def cfgPutFail : FetchConfig := ⟨"k", fun _ => .ok (some "p") (.ok "img"), fun _ => false, true⟩

/-- Environment where the remote fetch and the cache write both succeed. -/
def cfgHealthy : FetchConfig := ⟨"k", fun _ => .ok (some "p") (.ok "img"), fun _ => true, true⟩

/-- A two-row catalog with titles `A` and `B` and no `movie_id` values. -/
def catAB : Catalog := ⟨true, [⟨"A", none⟩, ⟨"B", none⟩]⟩

/-- A similarity matrix whose diagonal is strictly row-maximal. -/
def simAB : List (List ℤ) := [[1, 0], [0, 1]]

/-- A malformed similarity matrix: row `1` ties its self-similarity with
column `0`, so the diagonal is not strictly row-maximal. -/
def simTie : List (List ℤ) := [[1, 1], [1, 1]]

/-! ## Helper lemmas about the ranking sort -/

section SortLemmas

variable {α : Type} [LinearOrder α]

theorem rankLE_trans : ∀ a b c : Nat × α, rankLE a b → rankLE b c → rankLE a c := by
  intro a b c hab hbc
  exact decide_eq_true (le_trans (of_decide_eq_true hbc) (of_decide_eq_true hab))

theorem rankLE_total : ∀ a b : Nat × α, rankLE a b || rankLE b a := by
  intro a b
  simp only [rankLE, Bool.or_eq_true, decide_eq_true_eq]
  exact le_total b.2 a.2

theorem scoredOf_perm (d : List α) : (scoredOf d).Perm d.enum :=
  List.mergeSort_perm _ _

theorem mem_scoredOf_iff {d : List α} {x : Nat × α} : x ∈ scoredOf d ↔ x ∈ d.enum :=
  (scoredOf_perm d).mem_iff

theorem scoredOf_length (d : List α) : (scoredOf d).length = d.length := by
  rw [(scoredOf_perm d).length_eq, List.enum_eq_enumFrom, List.enumFrom_length]

theorem pairwise_fst_lt_enum (d : List α) :
    d.enum.Pairwise (fun a b => a.1 < b.1) := by
  have h := List.pairwise_lt_range' 0 d.length
  rw [← List.enumFrom_map_fst 0 d] at h
  rw [List.enum_eq_enumFrom]
  exact List.pairwise_map.mp h

theorem nodup_enum (d : List α) : d.enum.Nodup :=
  (pairwise_fst_lt_enum d).imp fun h heq => absurd (heq ▸ h) (lt_irrefl _)

theorem scoredOf_nodup (d : List α) : (scoredOf d).Nodup :=
  ((scoredOf_perm d).nodup_iff).mpr (nodup_enum d)

theorem mem_enum_get {d : List α} {x : Nat × α} (h : x ∈ d.enum) :
    d.get? x.1 = some x.2 := by
  simpa using List.mem_enum_iff_get?.mp h

theorem lt_length_of_mem_enum {d : List α} {x : Nat × α} (h : x ∈ d.enum) :
    x.1 < d.length :=
  List.get?_eq_some.mp (mem_enum_get h) |>.1

theorem enum_fst_inj {d : List α} {x y : Nat × α}
    (hx : x ∈ d.enum) (hy : y ∈ d.enum) (h : x.1 = y.1) : x = y := by
  have hx' := mem_enum_get hx
  have hy' := mem_enum_get hy
  rw [h, hy'] at hx'
  exact Prod.ext h (Option.some.inj hx').symm

theorem pairwise_pair_sublist {β : Type} {R : β → β → Prop}
    (hasym : ∀ a b, R a b → ¬R b a) :
    ∀ {l : List β} {x y : β}, l.Pairwise R → x ∈ l → y ∈ l → R x y → List.Sublist [x, y] l := by
  intro l
  induction l with
  | nil => intro x y _ hx _ _; cases hx
  | cons c t ih =>
    intro x y hp hx hy hr
    rcases List.pairwise_cons.mp hp with ⟨hc, ht⟩
    rcases List.mem_cons.mp hx with hxc | hxt
    · rcases List.mem_cons.mp hy with hyc | hyt
      · subst hxc; subst hyc; exact absurd hr (hasym _ _ hr)
      · subst hxc
        exact List.Sublist.cons₂ _ (List.singleton_sublist.mpr hyt)
    · rcases List.mem_cons.mp hy with hyc | hyt
      · subst hyc
        exact absurd hr (hasym _ _ (hc x hxt))
      · exact List.Sublist.cons _ (ih ht hxt hyt hr)

theorem nodup_pair_sublist_antisymm {β : Type} :
    ∀ {l : List β} {a b : β}, l.Nodup → List.Sublist [a, b] l → List.Sublist [b, a] l → a = b := by
  intro l
  induction l with
  | nil => intro a b _ h; exact absurd h (by simp)
  | cons c t ih =>
    intro a b hnd h1 h2
    cases h1 with
    | cons _ h1t =>
      cases h2 with
      | cons _ h2t => exact ih (List.nodup_cons.mp hnd).2 h1t h2t
      | cons₂ _ h2t =>
        exact absurd (h1t.subset (by simp)) (List.nodup_cons.mp hnd).1
    | cons₂ _ h1t =>
      cases h2 with
      | cons _ h2t =>
        exact absurd (h2t.subset (by simp)) (List.nodup_cons.mp hnd).1
      | cons₂ _ h2t => rfl

theorem scoredOf_sorted (d : List α) :
    (scoredOf d).Pairwise (fun a b => b.2 ≤ a.2) :=
  (List.sorted_mergeSort rankLE_trans rankLE_total d.enum).imp
    fun hab => of_decide_eq_true hab

theorem scoredOf_ties_ascending (d : List α) :
    (scoredOf d).Pairwise (fun a b => a.2 = b.2 → a.1 < b.1) := by
  rw [List.pairwise_iff_forall_sublist]
  intro a b hsub heq
  have ha : a ∈ d.enum := mem_scoredOf_iff.mp (hsub.subset (by simp))
  have hb : b ∈ d.enum := mem_scoredOf_iff.mp (hsub.subset (by simp))
  rcases Nat.lt_trichotomy a.1 b.1 with h | h | h
  · exact h
  · have hab : a = b := enum_fst_inj ha hb h
    subst hab
    exact absurd hsub (List.nodup_iff_sublist.mp (scoredOf_nodup d) a)
  · exfalso
    have hba : List.Sublist [b, a] d.enum :=
      pairwise_pair_sublist (fun x y hxy hyx => Nat.lt_asymm hxy hyx)
        (pairwise_fst_lt_enum d) hb ha h
    have hle : rankLE b a := decide_eq_true (le_of_eq heq)
    have hba' : List.Sublist [b, a] (scoredOf d) :=
      List.pair_sublist_mergeSort rankLE_trans rankLE_total hle hba
    have heqba : a = b := nodup_pair_sublist_antisymm (scoredOf_nodup d) hsub hba'
    exact absurd (heqba ▸ h) (lt_irrefl _)

end SortLemmas

/-! ## Helper lemmas about `recommend` -/

section RecommendLemmas

variable {α : Type} [LinearOrder α]

theorem candidatesOf_sublist_scoredOf (d : List α) (topN : Nat) :
    List.Sublist (candidatesOf d topN) (scoredOf d) :=
  (List.take_sublist _ _).trans (List.drop_sublist _ _)

theorem candidatesOf_length (d : List α) (topN : Nat) :
    (candidatesOf d topN).length = min topN (d.length - 1) := by
  simp [candidatesOf, List.length_take, List.length_drop, scoredOf_length]

theorem mem_candidatesOf_lt {d : List α} {topN : Nat} {x : Nat × α}
    (h : x ∈ candidatesOf d topN) : x.1 < d.length :=
  lt_length_of_mem_enum
    (mem_scoredOf_iff.mp ((candidatesOf_sublist_scoredOf d topN).subset h))

theorem recommend_eq_recLoop {cfg : FetchConfig} {cat : Catalog}
    {sim : List (List α)} {t : String} {topN : Nat} {s : Store} {i : Nat} {d : List α}
    (hT : cat.hasTitleCol = true) (hf : findTitleIndex cat t = some i)
    (hg : sim.get? i = some d) :
    recommend cfg cat sim t topN s = recLoop cfg cat (candidatesOf d topN) s [] := by
  have hg' : sim[i]? = some d := by rw [← List.get?_eq_getElem?]; exact hg
  simp [recommend, hT, hf, hg']

theorem recLoop_ok_length {cfg : FetchConfig} {cat : Catalog} :
    ∀ (cands : List (Nat × α)) (s : Store) (acc recs : List (String × Option String))
      (sOut : Store), recLoop cfg cat cands s acc = .ok (recs, sOut) →
      recs.length = acc.length + cands.length := by
  intro cands
  induction cands with
  | nil =>
    intro s acc recs sOut h
    simp only [recLoop] at h
    cases h
    simp
  | cons x rest ih =>
    intro s acc recs sOut h
    obtain ⟨idx, sc⟩ := x
    simp only [recLoop] at h
    cases hq : cat.rows.get? idx with
    | none => rw [hq] at h; cases h
    | some row =>
      rw [hq] at h
      simp only [] at h
      cases hrow : row.movieId with
      | none =>
        simp only [hrow] at h
        have := ih _ _ _ _ h
        simp at this ⊢
        omega
      | some mid =>
        simp only [hrow] at h
        cases hres : (fetchPoster cfg mid defaultRetries s).result with
        | error e => simp only [hres] at h; simp at h
        | ok poster =>
          simp only [hres] at h
          have := ih _ _ _ _ h
          simp at this ⊢
          omega

theorem recLoop_noKey {cfg : FetchConfig} {cat : Catalog} (hk : cfg.apiKey = "") :
    ∀ (cands : List (Nat × α)) (s : Store) (acc : List (String × Option String)),
      (∀ x ∈ cands, (x : Nat × α).1 < cat.rows.length) →
      ∃ l, recLoop cfg cat cands s acc = .ok (acc.reverse ++ l, s) ∧
        l.length = cands.length := by
  intro cands
  induction cands with
  | nil =>
    intro s acc _
    exact ⟨[], by simp [recLoop], rfl⟩
  | cons x rest ih =>
    intro s acc hbound
    obtain ⟨idx, sc⟩ := x
    have hidx : idx < cat.rows.length := hbound (idx, sc) (List.mem_cons_self _ _)
    have hget : cat.rows.get? idx = some (cat.rows.get ⟨idx, hidx⟩) :=
      List.get?_eq_get hidx
    cases hrow : (cat.rows.get ⟨idx, hidx⟩).movieId with
    | none =>
      obtain ⟨l, hl, hlen⟩ := ih s (((cat.rows.get ⟨idx, hidx⟩).title, none) :: acc)
        (fun y hy => hbound y (List.mem_cons_of_mem _ hy))
      refine ⟨((cat.rows.get ⟨idx, hidx⟩).title, none) :: l, ?_, by simp [hlen]⟩
      simp only [recLoop, hget, hrow]
      rw [hl]
      simp
    | some mid =>
      have hfetch : fetchPoster cfg mid defaultRetries s = ⟨.ok none, s, 0, 0⟩ := by
        simp [fetchPoster, hk]
      obtain ⟨l, hl, hlen⟩ := ih s (((cat.rows.get ⟨idx, hidx⟩).title, none) :: acc)
        (fun y hy => hbound y (List.mem_cons_of_mem _ hy))
      refine ⟨((cat.rows.get ⟨idx, hidx⟩).title, none) :: l, ?_, by simp [hlen]⟩
      simp only [recLoop, hget, hrow, hfetch]
      rw [hl]
      simp

end RecommendLemmas

/-! ## The strictly-maximal self-similarity case -/

section SelfMax

variable {α : Type} [LinearOrder α]

theorem scoredOf_head_self {d : List α} {i : Nat} (hi : i < d.length)
    (hmax : ∀ j (hj : j < d.length), j ≠ i → d.get ⟨j, hj⟩ < d.get ⟨i, hi⟩) :
    ∃ tl, scoredOf d = (i, d.get ⟨i, hi⟩) :: tl ∧ (i, d.get ⟨i, hi⟩) ∉ tl := by
  have hmem : (i, d.get ⟨i, hi⟩) ∈ scoredOf d := by
    rw [mem_scoredOf_iff, List.mem_enum_iff_get?]
    simp [List.get?_eq_get hi]
  cases hsc : scoredOf d with
  | nil => rw [hsc] at hmem; cases hmem
  | cons hd tl =>
    rw [hsc] at hmem
    rcases List.mem_cons.mp hmem with he | htl
    · refine ⟨tl, by rw [he], ?_⟩
      have hnd := scoredOf_nodup d
      rw [hsc] at hnd
      exact he ▸ (List.nodup_cons.mp hnd).1
    · exfalso
      have hsort := scoredOf_sorted d
      rw [hsc] at hsort
      have hxh : d.get ⟨i, hi⟩ ≤ hd.2 :=
        (List.pairwise_cons.mp hsort).1 _ htl
      have hdmem : hd ∈ scoredOf d := by rw [hsc]; exact List.mem_cons_self hd tl
      have hdenum : hd ∈ d.enum := mem_scoredOf_iff.mp hdmem
      have hdget := mem_enum_get hdenum
      have hdlt : hd.1 < d.length := lt_length_of_mem_enum hdenum
      by_cases hji : hd.1 = i
      · have hselfenum : (i, d.get ⟨i, hi⟩) ∈ d.enum := by
          rw [List.mem_enum_iff_get?]
          simp [List.get?_eq_get hi]
        have heq : hd = (i, d.get ⟨i, hi⟩) := enum_fst_inj hdenum hselfenum hji
        have hnd := scoredOf_nodup d
        rw [hsc] at hnd
        exact (List.nodup_cons.mp hnd).1 (heq ▸ htl)
      · have hlt := hmax hd.1 hdlt hji
        have h2 : hd.2 = d.get ⟨hd.1, hdlt⟩ := by
          rw [List.get?_eq_get hdlt] at hdget
          exact (Option.some.inj hdget).symm
        rw [h2] at hxh
        exact absurd hxh (not_le.mpr hlt)

theorem self_not_mem_candidatesOf {d : List α} {i : Nat} (hi : i < d.length)
    (hmax : ∀ j (hj : j < d.length), j ≠ i → d.get ⟨j, hj⟩ < d.get ⟨i, hi⟩)
    (topN : Nat) : i ∉ (candidatesOf d topN).map Prod.fst := by
  obtain ⟨tl, htl, hnotin⟩ := scoredOf_head_self hi hmax
  intro hmem
  rcases List.mem_map.mp hmem with ⟨x, hx, hfst⟩
  have hxtl : x ∈ tl := by
    have : candidatesOf d topN = tl.take topN := by
      rw [candidatesOf, htl]
      simp
    rw [this] at hx
    exact (List.take_sublist _ _).subset hx
  have hxscored : x ∈ scoredOf d := by
    rw [htl]
    exact List.mem_cons_of_mem _ hxtl
  have hxenum : x ∈ d.enum := mem_scoredOf_iff.mp hxscored
  have hself : (i, d.get ⟨i, hi⟩) ∈ d.enum := by
    rw [List.mem_enum_iff_get?]
    simp [List.get?_eq_get hi]
  have : x = (i, d.get ⟨i, hi⟩) := enum_fst_inj hxenum hself hfst
  exact hnotin (this ▸ hxtl)

end SelfMax

/-! ## Helper lemmas about `fetch_poster` -/

theorem hasBlob_putBlob_self (s : Store) (m : MovieId) (b : String) :
    (s.putBlob m b).hasBlob m = true := by
  simp [Store.putBlob, Store.hasBlob]

theorem hasBlob_putBlob_ne {k m : MovieId} (s : Store) (b : String) (h : k ≠ m) :
    (s.putBlob m b).hasBlob k = s.hasBlob k := by
  simp [Store.putBlob, Store.hasBlob, h]

theorem hasMarker_putBlob (s : Store) (m k : MovieId) (b : String) :
    (s.putBlob m b).hasMarker k = s.hasMarker k := rfl

theorem hasBlob_writeFailMarker (ok : Bool) (m k : MovieId) (s : Store) :
    (writeFailMarker ok m s).hasBlob k = s.hasBlob k := by
  cases ok <;> rfl

theorem hasMarker_writeFailMarker_self (m : MovieId) (s : Store) :
    (writeFailMarker true m s).hasMarker m = true := by
  simp [writeFailMarker, Store.hasMarker]

theorem hasMarker_writeFailMarker_ne {k m : MovieId} (ok : Bool) (s : Store) (h : k ≠ m) :
    (writeFailMarker ok m s).hasMarker k = s.hasMarker k := by
  cases ok <;> simp [writeFailMarker, Store.hasMarker, h]

theorem fetchLoop_all_transient (cfg : FetchConfig) (m : MovieId) (s : Store)
    (h : ∀ i, (cfg.attempts i).transientFailure = true) :
    ∀ (r a n0 k0 : Nat), ∃ net, fetchLoop cfg m s a r n0 k0 = ⟨.ok none, s, net, k0 + r⟩ := by
  intro r
  induction r with
  | zero => intro a n0 k0; exact ⟨n0, by simp [fetchLoop]⟩
  | succ r ih =>
    intro a n0 k0
    have ha := h a
    cases hA : cfg.attempts a with
    | transient =>
      by_cases hr : r = 0
      · subst hr
        exact ⟨n0 + 1, by simp [fetchLoop, hA]⟩
      · obtain ⟨net, hnet⟩ := ih (a + 1) (n0 + 1) (k0 + 1)
        refine ⟨net, ?_⟩
        simp only [fetchLoop, hA, if_neg hr]
        rw [hnet]
        congr 1
        omega
    | notFound => rw [hA] at ha; simp [MetaOutcome.transientFailure] at ha
    | ok locator img =>
      rw [hA] at ha
      by_cases hfal : locatorFalsy locator = true
      · simp [MetaOutcome.transientFailure, hfal] at ha
      · cases himg : img with
        | notFound => rw [himg] at ha; simp [MetaOutcome.transientFailure, hfal] at ha
        | ok bytes => rw [himg] at ha; simp [MetaOutcome.transientFailure, hfal] at ha
        | transient =>
          subst himg
          by_cases hr : r = 0
          · subst hr
            refine ⟨n0 + 1 + 1, ?_⟩
            simp [fetchLoop, hA, hfal]
          · obtain ⟨net, hnet⟩ := ih (a + 1) (n0 + 1 + 1) (k0 + 1)
            refine ⟨net, ?_⟩
            simp only [fetchLoop, hA, if_neg hr, if_neg hfal]
            rw [hnet]
            congr 1
            omega

theorem fetchLoop_shape (cfg : FetchConfig) (m : MovieId) (s : Store) :
    ∀ (r a n0 k0 : Nat),
      ((fetchLoop cfg m s a r n0 k0).result = .ok none ∧
        ((fetchLoop cfg m s a r n0 k0).store = s ∨
          (fetchLoop cfg m s a r n0 k0).store = writeFailMarker cfg.markerOk m s)) ∨
      ((fetchLoop cfg m s a r n0 k0).result = .ok (some (posterPath m)) ∧
        ∃ b, (fetchLoop cfg m s a r n0 k0).store = s.putBlob m b) ∨
      ((fetchLoop cfg m s a r n0 k0).result = .error () ∧
        (fetchLoop cfg m s a r n0 k0).store = s) := by
  intro r
  induction r with
  | zero => intro a n0 k0; exact Or.inl ⟨rfl, Or.inl rfl⟩
  | succ r ih =>
    intro a n0 k0
    cases hA : cfg.attempts a with
    | transient =>
      by_cases hr : r = 0
      · subst hr; exact Or.inl ⟨by simp [fetchLoop, hA], Or.inl (by simp [fetchLoop, hA])⟩
      · simpa only [fetchLoop, hA, if_neg hr] using ih (a + 1) (n0 + 1) (k0 + 1)
    | notFound =>
      exact Or.inl ⟨by simp [fetchLoop, hA], Or.inr (by simp [fetchLoop, hA])⟩
    | ok locator img =>
      by_cases hfal : locatorFalsy locator = true
      · exact Or.inl ⟨by simp [fetchLoop, hA, hfal], Or.inr (by simp [fetchLoop, hA, hfal])⟩
      · cases img with
        | notFound =>
          exact Or.inl ⟨by simp [fetchLoop, hA, hfal], Or.inr (by simp [fetchLoop, hA, hfal])⟩
        | transient =>
          by_cases hr : r = 0
          · subst hr
            exact Or.inl ⟨by simp [fetchLoop, hA, hfal], Or.inl (by simp [fetchLoop, hA, hfal])⟩
          · simpa only [fetchLoop, hA, if_neg hr, if_neg hfal] using ih (a + 1) (n0 + 1 + 1) (k0 + 1)
        | ok bytes =>
          by_cases hput : cfg.putOk a = true
          · exact Or.inr (Or.inl ⟨by simp [fetchLoop, hA, hfal, hput], ⟨bytes, by simp [fetchLoop, hA, hfal, hput]⟩⟩)
          · exact Or.inr (Or.inr ⟨by simp [fetchLoop, hA, hfal, hput], by simp [fetchLoop, hA, hfal, hput]⟩)

theorem hasBlob_iff_mem {s : Store} {k : MovieId} :
    s.hasBlob k = true ↔ k ∈ s.blobs.map Prod.fst := by
  simp [Store.hasBlob, List.elem_iff]

theorem hasMarker_iff_mem {s : Store} {k : MovieId} :
    s.hasMarker k = true ↔ k ∈ s.markers := by
  simp [Store.hasMarker, List.elem_iff]

theorem goodStore_writeFailMarker {s : Store} {m : MovieId} (ok : Bool)
    (hgood : goodStore s) (hnb : s.hasBlob m = false) :
    goodStore (writeFailMarker ok m s) := by
  cases ok with
  | false => exact hgood
  | true =>
    constructor
    · intro k hk
      obtain ⟨hb, hm⟩ := hk
      rw [hasBlob_writeFailMarker] at hb
      rw [hasMarker_iff_mem] at hm
      simp only [writeFailMarker, if_pos trivial, List.mem_cons] at hm
      rcases hm with hm | hm
      · subst hm; rw [hb] at hnb; cases hnb
      · exact hgood.1 k ⟨hb, hasMarker_iff_mem.mpr hm⟩
    · intro x hx
      exact hgood.2 x hx

theorem goodStore_putBlob {s : Store} {m : MovieId} {b : String}
    (hgood : goodStore s) (hnm : s.hasMarker m = false)
    (hv : isValidMovieId m = true) : goodStore (s.putBlob m b) := by
  constructor
  · intro k hk
    obtain ⟨hb, hm⟩ := hk
    rw [hasMarker_putBlob] at hm
    rw [hasBlob_iff_mem] at hb
    simp only [Store.putBlob, List.map_cons, List.mem_cons] at hb
    rcases hb with hb | hb
    · subst hb; rw [hm] at hnm; cases hnm
    · exact hgood.1 k ⟨hasBlob_iff_mem.mpr hb, hm⟩
  · intro x hx
    simp only [Store.putBlob, List.mem_cons] at hx
    rcases hx with hx | hx
    · subst hx; exact hv
    · exact hgood.2 x hx

theorem recordOf_writeFailMarker_ne {k m : MovieId} (ok : Bool) (s : Store) (h : k ≠ m) :
    recordOf k (writeFailMarker ok m s) = recordOf k s := by
  rw [recordOf, recordOf, hasBlob_writeFailMarker, hasMarker_writeFailMarker_ne ok s h]

theorem recordOf_putBlob_ne {k m : MovieId} (s : Store) (b : String) (h : k ≠ m) :
    recordOf k (s.putBlob m b) = recordOf k s := by
  rw [recordOf, recordOf, hasBlob_putBlob_ne s b h, hasMarker_putBlob]

theorem goodStore_store0 : goodStore store0 := by
  constructor
  · intro m hm
    obtain ⟨hb, _⟩ := hm
    simp [Store.hasBlob, store0] at hb
  · intro x hx
    simp [store0] at hx

/-! ## The claims -/

/-- Claim C8: when no remote-provider credential is configured
(`TMDB_API_KEY` unset or empty), `fetch_poster` returns `None` immediately
for every id (valid or not), performs zero network calls, and writes no
fail marker: the cache state is unchanged. -/
theorem claimC8_no_credential (cfg : FetchConfig) (m : MovieId) (retries : Nat)
    (s : Store) (hk : cfg.apiKey = "") :
    fetchPoster cfg m retries s = ⟨.ok none, s, 0, 0⟩ := by
  simp [fetchPoster, hk]

/-- Witness for claim C8 at a concrete input. -/
theorem claimC8_witness :
    fetchPoster cfgNoKey midBad 3 store0 = ⟨.ok none, store0, 0, 0⟩ :=
  claimC8_no_credential cfgNoKey midBad 3 store0 rfl

/-- Claim C9: with a credential configured, an id that does not coerce to a
positive integer gets a fail marker written for the raw invalid id and
`fetch_poster` returns `None` with zero network calls.  (The marker write
is best-effort; `markerOk = true` states that the filesystem accepted it.) -/
theorem claimC9_invalid_id (cfg : FetchConfig) (m : MovieId) (retries : Nat) (s : Store)
    (hk : ¬cfg.apiKey = "") (hv : isValidMovieId m = false) (hmk : cfg.markerOk = true) :
    fetchPoster cfg m retries s = ⟨.ok none, { s with markers := m :: s.markers }, 0, 0⟩ := by
  simp [fetchPoster, hk, hv, writeFailMarker, hmk]

/-- Witness for claim C9 at a concrete input. -/
theorem claimC9_witness :
    fetchPoster cfgNF midBad 3 store0 = ⟨.ok none, ⟨[], [midBad]⟩, 0, 0⟩ :=
  claimC9_invalid_id cfgNF midBad 3 store0 (by decide) (by decide) rfl

/-- Claim C2, amended: when the remote fetch succeeds but the local cache
write (`Put`) fails with a storage error, `fetch_poster` does not return
`None`: the `OSError` escapes to the caller (it is not a
`RequestException`, so the retry loop's `except` clause does not catch
it).  No fail marker is written and no further HTTP attempt is made. -/
theorem claimC2_put_storage_error (cfg : FetchConfig) (m : MovieId) (r : Nat) (s : Store)
    (p bytes : String)
    (hk : ¬cfg.apiKey = "") (hv : isValidMovieId m = true)
    (hb : s.hasBlob m = false) (hm : s.hasMarker m = false)
    (hp : ¬p = "") (hA : cfg.attempts 0 = .ok (some p) (.ok bytes))
    (hput : cfg.putOk 0 = false) :
    fetchPoster cfg m (r + 1) s = ⟨.error (), s, 2, 1⟩ := by
  simp [fetchPoster, hk, hv, hb, hm, fetchLoop, hA, locatorFalsy, hp, hput]

/-- Witness for the amended claim C2 at a concrete input. -/
theorem claimC2_witness :
    fetchPoster cfgPutFail mid1 3 store0 = ⟨.error (), store0, 2, 1⟩ :=
  claimC2_put_storage_error cfgPutFail mid1 2 store0 "p" "img"
    (by decide) rfl rfl rfl (by decide) rfl rfl

/-- Counterexample to claim C2 as stated: with a failing cache write,
`fetch_poster` does not return `None` (it raises), even though it indeed
writes no fail marker and performs no further attempt. -/
theorem claimC2_counterexample :
    (fetchPoster cfgPutFail mid1 3 store0).result ≠ .ok none ∧
    (fetchPoster cfgPutFail mid1 3 store0).store.markers = [] ∧
    (fetchPoster cfgPutFail mid1 3 store0).attemptsMade = 1 := by
  decide

/-- Claim C5: with a valid, uncached, unmarked id and a provider failing
transiently on every attempt, `fetch_poster` makes exactly `retries` loop
attempts, returns `None`, and leaves the store untouched (no fail marker),
so a later call with a healthy provider succeeds and caches the blob. -/
theorem claimC5_transient_retries (cfg : FetchConfig) (m : MovieId) (retries : Nat)
    (s : Store)
    (hk : ¬cfg.apiKey = "") (hv : isValidMovieId m = true)
    (hb : s.hasBlob m = false) (hm : s.hasMarker m = false)
    (htr : ∀ i, (cfg.attempts i).transientFailure = true) :
    (∃ net, fetchPoster cfg m retries s = ⟨.ok none, s, net, retries⟩) ∧
    (∀ (cfg2 : FetchConfig) (p bytes : String) (r2 : Nat),
      ¬cfg2.apiKey = "" → ¬p = "" → cfg2.attempts 0 = .ok (some p) (.ok bytes) →
      cfg2.putOk 0 = true →
      fetchPoster cfg2 m (r2 + 1) s = ⟨.ok (some (posterPath m)), s.putBlob m bytes, 2, 1⟩) := by
  constructor
  · obtain ⟨net, hnet⟩ := fetchLoop_all_transient cfg m s htr retries 0 0 0
    refine ⟨net, ?_⟩
    have heq : fetchPoster cfg m retries s = fetchLoop cfg m s 0 retries 0 0 := by
      simp [fetchPoster, hk, hv, hb, hm]
    rw [heq]
    simpa using hnet
  · intro cfg2 p bytes r2 hk2 hp hA2 hput2
    simp [fetchPoster, hk2, hv, hb, hm, fetchLoop, hA2, locatorFalsy, hp, hput2]

/-- Witness for claim C5 at a concrete input: three transient attempts,
result `None`, store untouched. -/
theorem claimC5_witness :
    (fetchPoster cfgTrans mid1 3 store0).result = .ok none ∧
    (fetchPoster cfgTrans mid1 3 store0).store = store0 ∧
    (fetchPoster cfgTrans mid1 3 store0).attemptsMade = 3 ∧
    fetchPoster cfgHealthy mid1 3 store0 =
      ⟨.ok (some (posterPath mid1)), store0.putBlob mid1 "img", 2, 1⟩ := by
  obtain ⟨⟨net, hnet⟩, hhealthy⟩ :=
    claimC5_transient_retries cfgTrans mid1 3 store0 (by decide) rfl rfl rfl (fun i => rfl)
  rw [hnet]
  exact ⟨rfl, rfl, rfl, hhealthy cfgHealthy "p" "img" 2 (by decide) (by decide) rfl rfl⟩

/-- Claim C7: once a `fetch_poster` call for a valid id has terminated
authoritatively — it returned a local reference (cached blob), or it
returned `None` leaving a fail marker — a second call with the same
environment returns the same result, touches nothing, and performs zero
network requests. -/
theorem claimC7_idempotent (cfg : FetchConfig) (m : MovieId) (retries : Nat) (s : Store)
    (hk : ¬cfg.apiKey = "") (hv : isValidMovieId m = true) :
    (∀ p, (fetchPoster cfg m retries s).result = .ok (some p) →
      fetchPoster cfg m retries (fetchPoster cfg m retries s).store =
        ⟨.ok (some p), (fetchPoster cfg m retries s).store, 0, 0⟩) ∧
    ((fetchPoster cfg m retries s).result = .ok none →
      (fetchPoster cfg m retries s).store.hasMarker m = true →
      fetchPoster cfg m retries (fetchPoster cfg m retries s).store =
        ⟨.ok none, (fetchPoster cfg m retries s).store, 0, 0⟩) := by
  cases hsb : s.hasBlob m with
  | true =>
    have heq : fetchPoster cfg m retries s = ⟨.ok (some (posterPath m)), s, 0, 0⟩ := by
      simp [fetchPoster, hk, hv, hsb]
    constructor
    · intro p hp
      rw [heq] at hp ⊢
      have hp' : p = posterPath m := (Option.some.inj (Except.ok.inj hp)).symm
      subst hp'
      simp [fetchPoster, hk, hv, hsb]
    · intro hnone
      rw [heq] at hnone
      simp at hnone
  | false =>
    cases hsm : s.hasMarker m with
    | true =>
      have heq : fetchPoster cfg m retries s = ⟨.ok none, s, 0, 0⟩ := by
        simp [fetchPoster, hk, hv, hsb, hsm]
      constructor
      · intro p hp
        rw [heq] at hp
        simp at hp
      · intro _ _
        rw [heq]
        simp [fetchPoster, hk, hv, hsb, hsm]
    | false =>
      have heq : fetchPoster cfg m retries s = fetchLoop cfg m s 0 retries 0 0 := by
        simp [fetchPoster, hk, hv, hsb, hsm]
      rcases fetchLoop_shape cfg m s retries 0 0 0 with ⟨hres, hst⟩ | ⟨hres, b, hst⟩ | ⟨hres, hst⟩
      · constructor
        · intro p hp
          rw [heq, hres] at hp
          simp at hp
        · intro _ hmark
          have hb2 : (fetchPoster cfg m retries s).store.hasBlob m = false := by
            rw [heq]
            rcases hst with h | h <;> rw [h]
            · exact hsb
            · rw [hasBlob_writeFailMarker]; exact hsb
          generalize hgen : (fetchPoster cfg m retries s).store = s2 at hb2 hmark ⊢
          simp [fetchPoster, hk, hv, hb2, hmark]
      · constructor
        · intro p hp
          rw [heq, hres] at hp
          have hp' : p = posterPath m := (Option.some.inj (Except.ok.inj hp)).symm
          subst hp'
          have hblob : (fetchPoster cfg m retries s).store.hasBlob m = true := by
            rw [heq, hst]
            exact hasBlob_putBlob_self s m b
          generalize hgen : (fetchPoster cfg m retries s).store = s2 at hblob ⊢
          simp [fetchPoster, hk, hv, hblob]
        · intro hnone
          rw [heq, hres] at hnone
          simp at hnone
      · constructor
        · intro p hp
          rw [heq, hres] at hp
          simp at hp
        · intro hnone
          rw [heq, hres] at hnone
          simp at hnone

/-- Witness for claim C7 at a concrete input: a 404 writes a fail marker,
and the second call returns `None` again with zero network requests. -/
theorem claimC7_witness :
    fetchPoster cfgNF mid42 3 (fetchPoster cfgNF mid42 3 store0).store =
      ⟨.ok none, (fetchPoster cfgNF mid42 3 store0).store, 0, 0⟩ :=
  (claimC7_idempotent cfgNF mid42 3 store0 (by decide) rfl).2 (by decide) (by decide)

/-- One `fetch_poster` call preserves store sanity, changes no
non-absent per-identifier record, and performs no network request for an
id whose record is terminal. -/
theorem fetchPoster_record_step (cfg : FetchConfig) (m : MovieId) (retries : Nat) (s : Store)
    (hgood : goodStore s) :
    goodStore (fetchPoster cfg m retries s).store ∧
    (∀ k, recordOf k (fetchPoster cfg m retries s).store = recordOf k s ∨
      recordOf k s = .absent) ∧
    (recordOf m s ≠ .absent → (fetchPoster cfg m retries s).networkCalls = 0) := by
  by_cases hk : cfg.apiKey = ""
  · have heq : fetchPoster cfg m retries s = ⟨.ok none, s, 0, 0⟩ := by
      simp [fetchPoster, hk]
    rw [heq]
    exact ⟨hgood, fun k => Or.inl rfl, fun _ => rfl⟩
  · cases hv : isValidMovieId m with
    | false =>
      have heq : fetchPoster cfg m retries s =
          ⟨.ok none, writeFailMarker cfg.markerOk m s, 0, 0⟩ := by
        simp [fetchPoster, hk, hv]
      have hnb : s.hasBlob m = false := by
        cases hsb : s.hasBlob m with
        | false => rfl
        | true =>
          exfalso
          rcases List.mem_map.mp (hasBlob_iff_mem.mp hsb) with ⟨x, hx, hfst⟩
          have hvx := hgood.2 x hx
          rw [hfst] at hvx
          rw [hvx] at hv
          cases hv
      rw [heq]
      refine ⟨goodStore_writeFailMarker _ hgood hnb, ?_, fun _ => rfl⟩
      intro k
      by_cases hkm : k = m
      · subst hkm
        cases hsm : s.hasMarker k with
        | false => exact Or.inr (by simp [recordOf, hnb, hsm])
        | true =>
          left
          cases hmk : cfg.markerOk with
          | false => rfl
          | true =>
            have h1 : recordOf k (writeFailMarker true k s) = .failed := by
              rw [recordOf, hasBlob_writeFailMarker, hnb]
              simp [hasMarker_writeFailMarker_self]
            have h2 : recordOf k s = .failed := by simp [recordOf, hnb, hsm]
            rw [h1, h2]
      · exact Or.inl (recordOf_writeFailMarker_ne _ _ hkm)
    | true =>
      cases hsb : s.hasBlob m with
      | true =>
        have heq : fetchPoster cfg m retries s = ⟨.ok (some (posterPath m)), s, 0, 0⟩ := by
          simp [fetchPoster, hk, hv, hsb]
        rw [heq]
        exact ⟨hgood, fun k => Or.inl rfl, fun _ => rfl⟩
      | false =>
        cases hsm : s.hasMarker m with
        | true =>
          have heq : fetchPoster cfg m retries s = ⟨.ok none, s, 0, 0⟩ := by
            simp [fetchPoster, hk, hv, hsb, hsm]
          rw [heq]
          exact ⟨hgood, fun k => Or.inl rfl, fun _ => rfl⟩
        | false =>
          have heq : fetchPoster cfg m retries s = fetchLoop cfg m s 0 retries 0 0 := by
            simp [fetchPoster, hk, hv, hsb, hsm]
          have habs : recordOf m s = .absent := by simp [recordOf, hsb, hsm]
          refine ⟨?_, ?_, fun hne => absurd habs hne⟩
          · rw [heq]
            rcases fetchLoop_shape cfg m s retries 0 0 0 with ⟨_, hst⟩ | ⟨_, b, hst⟩ | ⟨_, hst⟩
            · rcases hst with h | h
              · rw [h]; exact hgood
              · rw [h]; exact goodStore_writeFailMarker _ hgood hsb
            · rw [hst]; exact goodStore_putBlob hgood hsm hv
            · rw [hst]; exact hgood
          · intro k
            by_cases hkm : k = m
            · subst hkm; exact Or.inr habs
            · rw [heq]
              rcases fetchLoop_shape cfg m s retries 0 0 0 with ⟨_, hst⟩ | ⟨_, b, hst⟩ | ⟨_, hst⟩
              · rcases hst with h | h
                · rw [h]; exact Or.inl rfl
                · rw [h]; exact Or.inl (recordOf_writeFailMarker_ne _ _ hkm)
              · rw [hst]; exact Or.inl (recordOf_putBlob_ne _ _ hkm)
              · rw [hst]; exact Or.inl rfl

/-- A sequence of `fetch_poster` calls preserves store sanity and never
changes a record that was already terminal when the sequence started. -/
theorem runFetches_good :
    ∀ (calls : List (FetchConfig × MovieId × Nat)) (s : Store), goodStore s →
      goodStore (runFetches calls s) ∧
      (∀ k, recordOf k s ≠ .absent → recordOf k (runFetches calls s) = recordOf k s) := by
  intro calls
  induction calls with
  | nil => exact fun s hgood => ⟨hgood, fun k _ => rfl⟩
  | cons c rest ih =>
    intro s hgood
    obtain ⟨cfg, m, r⟩ := c
    have hstep := fetchPoster_record_step cfg m r s hgood
    have hrec := ih (fetchPoster cfg m r s).store hstep.1
    refine ⟨hrec.1, ?_⟩
    intro k hk
    rcases hstep.2.1 k with h1 | h1
    · have hk1 : recordOf k (fetchPoster cfg m r s).store ≠ .absent := by
        rw [h1]; exact hk
      rw [runFetches]
      rw [hrec.2 k hk1, h1]
    · exact absurd h1 hk

/-- Claim C6: starting from a sane store, per-identifier records move only
`absent → cached` or `absent → permanently-unavailable` on each call; a
record that is terminal is never changed by any later sequence of calls;
a call for an id whose record is terminal performs zero network requests;
and no id ever has both a cached blob and a fail marker. -/
theorem claimC6_record_transitions (s : Store) (hgood : goodStore s) :
    (∀ (cfg : FetchConfig) (m : MovieId) (retries : Nat),
      goodStore (fetchPoster cfg m retries s).store ∧
      (∀ k, recordOf k (fetchPoster cfg m retries s).store = recordOf k s ∨
        recordOf k s = .absent) ∧
      (recordOf m s ≠ .absent → (fetchPoster cfg m retries s).networkCalls = 0)) ∧
    (∀ calls : List (FetchConfig × MovieId × Nat),
      goodStore (runFetches calls s) ∧
      (∀ k, recordOf k s ≠ .absent → recordOf k (runFetches calls s) = recordOf k s)) :=
  ⟨fun cfg m retries => fetchPoster_record_step cfg m retries s hgood,
   fun calls => runFetches_good calls s hgood⟩

/-- Witness for claim C6 at a concrete input: a 404 call followed by a
healthy call for id `42`, starting from the empty store. -/
theorem claimC6_witness :
    goodStore (runFetches [(cfgNF, mid42, 3), (cfgHealthy, mid42, 3)] store0) ∧
    (recordOf mid42 (fetchPoster cfgNF mid42 3 store0).store = recordOf mid42 store0 ∨
      recordOf mid42 store0 = .absent) := by
  have h := claimC6_record_transitions store0 goodStore_store0
  exact ⟨(h.2 [(cfgNF, mid42, 3), (cfgHealthy, mid42, 3)]).1, (h.1 cfgNF mid42 3).2.1 mid42⟩

/-- Claim C1, amended: when the row index resolved for the query title is
out of bounds for the similarity matrix, `recommend` catches the lookup
failure and returns the empty list as a normal result; no error condition
is surfaced to the caller. -/
theorem claimC1_oob_empty {α : Type} [LinearOrder α] (cfg : FetchConfig)
    (cat : Catalog) (sim : List (List α)) (t : String) (topN : Nat) (s : Store)
    (i : Nat) (hf : findTitleIndex cat t = some i) (hg : sim.get? i = none) :
    recommend cfg cat sim t topN s = .ok ([], s) := by
  cases hT : cat.hasTitleCol with
  | false => simp [recommend, hT]
  | true =>
    have hg2 : sim[i]? = none := by rw [← List.get?_eq_getElem?]; exact hg
    simp [recommend, hT, hf, hg2]

/-- Witness for the amended claim C1 at a concrete input. -/
theorem claimC1_witness :
    recommend cfgNoKey catAB ([[1, 0]] : List (List ℤ)) "B" 5 store0 = .ok ([], store0) :=
  claimC1_oob_empty cfgNoKey catAB [[1, 0]] "B" 5 store0 1 rfl rfl

/-- Counterexample to claim C1 as stated: with the resolved index `0` out
of bounds for an empty similarity matrix, `recommend` returns the normal
result `[]` instead of failing with a `RankingError`. -/
theorem claimC1_counterexample :
    findTitleIndex catAB "A" = some 0 ∧
    ([] : List (List ℤ)).get? 0 = none ∧
    recommend cfgNoKey catAB ([] : List (List ℤ)) "A" 5 store0 = .ok ([], store0) := by
  refine ⟨rfl, rfl, ?_⟩
  decide

/-- Claim C4: the ranked candidate sequence produced by `recommend` is
ordered by non-increasing score, and entries with equal scores appear in
ascending original column-index order (the sort is stable over the
ascending-index enumeration).  As the embedding is a pure function, the
output is identical across repeated calls. -/
theorem claimC4_rank_order {α : Type} [LinearOrder α] (d : List α) (topN : Nat) :
    (candidatesOf d topN).Pairwise
      (fun a b => b.2 ≤ a.2 ∧ (a.2 = b.2 → a.1 < b.1)) :=
  List.Pairwise.sublist (candidatesOf_sublist_scoredOf d topN)
    ((scoredOf_sorted d).and (scoredOf_ties_ascending d))

/-- Claim C3, amended: if the query row's own score is strictly greater
than every other score in its similarity row, `recommend` returns at most
`topN` entries and none of them corresponds to the query's own catalog row
(by position). -/
theorem claimC3_no_self {α : Type} [LinearOrder α] (cfg : FetchConfig)
    (cat : Catalog) (sim : List (List α)) (t : String) (topN : Nat) (s : Store)
    (i : Nat) (d : List α)
    (hf : findTitleIndex cat t = some i) (hg : sim.get? i = some d)
    (hi : i < d.length)
    (hmax : ∀ j (hj : j < d.length), j ≠ i → d.get ⟨j, hj⟩ < d.get ⟨i, hi⟩) :
    i ∉ (candidatesOf d topN).map Prod.fst ∧
    recsLenLE (recommend cfg cat sim t topN s) topN := by
  refine ⟨self_not_mem_candidatesOf hi hmax topN, ?_⟩
  cases hT : cat.hasTitleCol with
  | false => simp [recommend, hT, recsLenLE]
  | true =>
    rw [recommend_eq_recLoop hT hf hg]
    cases hres : recLoop cfg cat (candidatesOf d topN) s [] with
    | error e => simp [recsLenLE]
    | ok out =>
      obtain ⟨recs, sOut⟩ := out
      have hlen := recLoop_ok_length _ _ _ _ _ hres
      simp only [recsLenLE]
      rw [candidatesOf_length] at hlen
      simp at hlen
      omega

/-- Witness for the amended claim C3 at a concrete input. -/
theorem claimC3_witness :
    0 ∉ (candidatesOf ([1, 0] : List ℤ) 5).map Prod.fst ∧
    recsLenLE (recommend cfgNoKey catAB simAB "A" 5 store0) 5 :=
  claimC3_no_self cfgNoKey catAB simAB "A" 5 store0 0 [1, 0] rfl rfl (by decide)
    (by
      intro j hj hne
      have hj2 : j < 2 := by simpa using hj
      interval_cases j
      · exact absurd rfl hne
      · exact (by decide : (0 : ℤ) < 1))

/-- Counterexample to claim C3 as stated: in `simTie` the query row `1`
ties its self-similarity with column `0`, the stable sort puts column `0`
first, dropping the first ranked entry removes the wrong row, and the
query's own row is returned. -/
theorem claimC3_counterexample :
    findTitleIndex catAB "B" = some 1 ∧
    1 ∈ (candidatesOf ([1, 1] : List ℤ) 5).map Prod.fst ∧
    recommend cfgNoKey catAB simTie "B" 5 store0 = .ok ([("B", none)], store0) := by
  have hsorted : List.Pairwise (fun a b : Nat × ℤ => rankLE a b) (([1, 1] : List ℤ).enum) := by
    decide
  have hs : scoredOf ([1, 1] : List ℤ) = ([1, 1] : List ℤ).enum :=
    List.mergeSort_of_sorted hsorted
  have hc : candidatesOf ([1, 1] : List ℤ) 5 = [(1, 1)] := by
    rw [candidatesOf, hs]
    decide
  refine ⟨rfl, ?_, ?_⟩
  · rw [hc]; decide
  · rw [@recommend_eq_recLoop ℤ _ cfgNoKey catAB simTie "B" 5 store0 1 [1, 1] rfl rfl rfl, hc]
    decide

/-- Claim C10: with no credential configured and a similarity row whose
positions all lie within the catalog's row bounds, `recommend` is total:
it returns normally with the cache state untouched, yields `[]` when there
is no title column or the title is absent (and when the similarity lookup
fails), and otherwise yields exactly `min topN (rowLength - 1)` entries
(truncated subtraction realises `max (0, ...)`). -/
theorem claimC10_total {α : Type} [LinearOrder α] (cfg : FetchConfig) (cat : Catalog)
    (sim : List (List α)) (t : String) (topN : Nat) (s : Store)
    (hk : cfg.apiKey = "")
    (hbound : ∀ i d, findTitleIndex cat t = some i → sim.get? i = some d →
      d.length ≤ cat.rows.length) :
    returnsNormally (recommend cfg cat sim t topN s) ∧
    (cat.hasTitleCol = false → recommend cfg cat sim t topN s = .ok ([], s)) ∧
    (findTitleIndex cat t = none → recommend cfg cat sim t topN s = .ok ([], s)) ∧
    (∀ i, findTitleIndex cat t = some i → sim.get? i = none →
      recommend cfg cat sim t topN s = .ok ([], s)) ∧
    (∀ i d, cat.hasTitleCol = true → findTitleIndex cat t = some i →
      sim.get? i = some d →
      recsLenEq (recommend cfg cat sim t topN s) (min topN (d.length - 1)) s) := by
  cases hT : cat.hasTitleCol with
  | false =>
    have heq : recommend cfg cat sim t topN s = .ok ([], s) := by simp [recommend, hT]
    refine ⟨by rw [heq]; trivial, fun _ => heq, fun _ => heq, fun _ _ _ => heq, ?_⟩
    intro i d hT2 _ _
    exact Bool.noConfusion hT2
  | true =>
    cases hfind : findTitleIndex cat t with
    | none =>
      have heq : recommend cfg cat sim t topN s = .ok ([], s) := by
        simp [recommend, hT, hfind]
      refine ⟨by rw [heq]; trivial, ?_, fun _ => heq, ?_, ?_⟩
      · intro h; exact Bool.noConfusion h
      · intro i h _; exact Option.noConfusion h
      · intro i d _ h _; exact Option.noConfusion h
    | some i =>
      cases hget : sim.get? i with
      | none =>
        have hg2 : sim[i]? = none := by rw [← List.get?_eq_getElem?]; exact hget
        have heq : recommend cfg cat sim t topN s = .ok ([], s) := by
          simp [recommend, hT, hfind, hg2]
        refine ⟨by rw [heq]; trivial, ?_, ?_, fun _ _ _ => heq, ?_⟩
        · intro h; exact Bool.noConfusion h
        · intro h; exact Option.noConfusion h
        · intro i2 d _ h2 hg3
          obtain rfl : i = i2 := Option.some.inj h2
          exact Option.noConfusion (hget.symm.trans hg3)
      | some d =>
        have hcb : ∀ x ∈ candidatesOf d topN, (x : Nat × α).1 < cat.rows.length :=
          fun x hx => lt_of_lt_of_le (mem_candidatesOf_lt hx) (hbound i d hfind hget)
        obtain ⟨l, hl, hlen⟩ := recLoop_noKey hk (candidatesOf d topN) s [] hcb
        have heq : recommend cfg cat sim t topN s = .ok (l, s) := by
          rw [recommend_eq_recLoop hT hfind hget]
          simpa using hl
        refine ⟨by rw [heq]; trivial, ?_, ?_, ?_, ?_⟩
        · intro h; exact Bool.noConfusion h
        · intro h; exact Option.noConfusion h
        · intro i2 h2 hg3
          obtain rfl : i = i2 := Option.some.inj h2
          exact Option.noConfusion (hget.symm.trans hg3)
        · intro i2 d2 _ h2 hg3
          obtain rfl : i = i2 := Option.some.inj h2
          obtain rfl : d = d2 := Option.some.inj (hget.symm.trans hg3)
          rw [heq]
          exact ⟨by rw [hlen, candidatesOf_length], rfl⟩

/-- Witness for claim C10 at a concrete input: title `A` resolves to row 0
of `simAB`, whose row has length 2, so exactly `min 5 1 = 1` entry is
returned and no exception escapes. -/
theorem claimC10_witness :
    recsLenEq (recommend cfgNoKey catAB simAB "A" 5 store0)
      (min 5 ((([1, 0] : List ℤ)).length - 1)) store0 :=
  (claimC10_total cfgNoKey catAB simAB "A" 5 store0 rfl
    (by
      intro i d h1 h2
      have hi : i = 0 := by
        rw [show findTitleIndex catAB "A" = some 0 from rfl] at h1
        exact (Option.some.inj h1).symm
      subst hi
      have hd : d = [1, 0] := by
        rw [show simAB.get? 0 = some ([1, 0] : List ℤ) from rfl] at h2
        exact (Option.some.inj h2).symm
      subst hd
      decide)).2.2.2.2 0 [1, 0] rfl rfl rfl
